import Mathlib

/-!
Verification of the validation-and-persistence contract of the
Express-bookstore CRUD service (single `books` entity, JSON-schema request
validation on the mutating routes).

The repository ships `src/schemas/bookSchemaUpdate.js` (the update schema)
and its integration tests; the create schema, the generic validator, the
book store and the route handlers are referenced by those files but are not
part of the sources, so they are modelled here from the specification
(marked `Modelled from the spec:`). The update schema is embedded directly
from `src/schemas/bookSchemaUpdate.js`.
-/

set_option autoImplicit false

namespace Bookstore

/-- A JSON value as far as the validator distinguishes them: strings and
integers are inspected (the only types the schemas use); other JSON shapes
only matter through their type tag. -/
inductive Jval where
  | str (s : String)
  | int (n : Int)
  | num
  | bool (b : Bool)
  | null
  | arr
  | obj
deriving DecidableEq

/-- A JSON request body: an object as an association list of fields. -/
abbrev Payload := List (String × Jval)

/-- First-match association-list lookup, the object-field access used
throughout. -/
def alookup {β : Type} (k : String) : List (String × β) → Option β
  | [] => none
  | (k', v) :: rest => if k = k' then some v else alookup k rest

/-- The two primitive JSON-schema types the schemas use. -/
inductive FieldType where
  | string
  | integer
deriving DecidableEq

/-- Per-field schema entry: a type, an optional `format: "uri"` flag and an
optional `minimum` bound, exactly the keywords appearing in the schemas. -/
structure FieldSchema where
  type : FieldType
  format_uri : Bool
  minimum : Option Int
deriving DecidableEq

/-- An object schema: declared properties, required field names and the
`additionalProperties` flag. -/
structure Schema where
  properties : List (String × FieldSchema)
  required : List String
  additionalProperties : Bool
deriving DecidableEq

/-- The update schema, embedded from `src/schemas/bookSchemaUpdate.js`:
seven properties (no `isbn`), nothing required, `additionalProperties:
false`. -/
def bookSchemaUpdate : Schema :=
  { properties :=
      [ ("amazon_url", ⟨FieldType.string, true, none⟩)
      , ("author", ⟨FieldType.string, false, none⟩)
      , ("language", ⟨FieldType.string, false, none⟩)
      , ("pages", ⟨FieldType.integer, false, some 1⟩)
      , ("publisher", ⟨FieldType.string, false, none⟩)
      , ("title", ⟨FieldType.string, false, none⟩)
      , ("year", ⟨FieldType.integer, false, some 0⟩) ]
  , required := []
  , additionalProperties := false }

/-- Modelled from the spec: the create schema (`src/schemas/bookSchema.js`
is absent from the sources). Spec §3/§4.1: all eight fields (isbn,
amazon_url, author, language, pages, publisher, title, year) required,
types as in the data-model table, `additionalProperties: false`. -/
def bookSchema : Schema :=
  { properties :=
      [ ("isbn", ⟨FieldType.string, false, none⟩)
      , ("amazon_url", ⟨FieldType.string, true, none⟩)
      , ("author", ⟨FieldType.string, false, none⟩)
      , ("language", ⟨FieldType.string, false, none⟩)
      , ("pages", ⟨FieldType.integer, false, some 1⟩)
      , ("publisher", ⟨FieldType.string, false, none⟩)
      , ("title", ⟨FieldType.string, false, none⟩)
      , ("year", ⟨FieldType.integer, false, some 0⟩) ]
  , required :=
      [ "isbn", "amazon_url", "author", "language", "pages", "publisher"
      , "title", "year" ]
  , additionalProperties := false }

/-- Splits a character list at the first `://`, returning the scheme part
and the remainder. Structural helper for the URI format check. -/
def schemeSplit (acc : List Char) : List Char → Option (List Char × List Char)
  | ':' :: '/' :: '/' :: rest => some (acc.reverse, rest)
  | c :: rest => schemeSplit (c :: acc) rest
  | [] => none

/-- Modelled from the spec: well-formedness of a URI (the `format: "uri"`
check of the absent validator component, spec §4.2): a nonempty alphabetic
scheme, `://`, and a nonempty remainder. -/
def uriOk (s : String) : Bool :=
  match schemeSplit [] s.data with
  | some (scheme, rest) =>
      !scheme.isEmpty && scheme.all Char.isAlpha && !rest.isEmpty
  | none => false

/-- Does a JSON value satisfy a primitive schema type. -/
def typeOk : FieldType → Jval → Bool
  | FieldType.string, Jval.str _ => true
  | FieldType.integer, Jval.int _ => true
  | _, _ => false

/-- Violation message for a missing required field. -/
def reqMsg (r : String) : String :=
  "instance requires property " ++ r

/-- Violation message for a wrongly typed field. -/
def typeMsg (k : String) : String :=
  "instance." ++ k ++ " is not of the expected type"

/-- Violation message for a malformed URI. -/
def fmtMsg (k : String) : String :=
  "instance." ++ k ++ " does not conform to the uri format"

/-- Violation message for a value below its declared minimum. -/
def minMsg (k : String) : String :=
  "instance." ++ k ++ " must meet minimum"

/-- Violation message for a property not declared in the schema. -/
def addlMsg (k : String) : String :=
  "instance is not allowed to have the additional property " ++ k

/-- Modelled from the spec: the type-keyword check on one field. Part of
the absent validator component (spec §4.2). -/
def typeViolation (k : String) (fs : FieldSchema) (v : Jval) : List String :=
  if typeOk fs.type v then [] else [typeMsg k]

/-- Modelled from the spec: the format-keyword check on one field; the
`uri` format applies only to string values. -/
def formatViolation (k : String) (fs : FieldSchema) : Jval → List String
  | Jval.str s => if fs.format_uri && !uriOk s then [fmtMsg k] else []
  | _ => []

/-- Modelled from the spec: the minimum-keyword check on one field; the
bound applies only to integer values. -/
def minViolation (k : String) (fs : FieldSchema) : Jval → List String
  | Jval.int n =>
      match fs.minimum with
      | some m => if n < m then [minMsg k] else []
      | none => []
  | _ => []

/-- Modelled from the spec: all violations of a single payload field: the
keyword checks when the field is declared, the additional-property check
when it is not. -/
def entryViolations (props : List (String × FieldSchema)) (addl : Bool)
    (k : String) (v : Jval) : List String :=
  match alookup k props with
  | some fs => typeViolation k fs v ++ formatViolation k fs v ++ minViolation k fs v
  | none => if addl then [] else [addlMsg k]

/-- Modelled from the spec: field checks over every entry of the payload,
in payload order. -/
def entriesViolations (props : List (String × FieldSchema)) (addl : Bool) :
    Payload → List String
  | [] => []
  | (k, v) :: rest =>
      entryViolations props addl k v ++ entriesViolations props addl rest

/-- Modelled from the spec: the required-field presence check. -/
def requiredViolations (p : Payload) : List String → List String
  | [] => []
  | r :: rest =>
      (if alookup r p = none then [reqMsg r] else []) ++ requiredViolations p rest

/-- Modelled from the spec: every violation of the payload against the
schema, collected in a single pass (spec §4.2: the validator collects ALL
violations, not just the first). -/
def violations (s : Schema) (p : Payload) : List String :=
  requiredViolations p s.required ++
    entriesViolations s.properties s.additionalProperties p

/-- Modelled from the spec: `validate(payload, schema)` of the absent
validator component (spec §4.2): succeeds returning the payload unmodified
when no violation exists, otherwise fails with the combined violation
list. -/
def validate (p : Payload) (s : Schema) : Except (List String) Payload :=
  if violations s p = [] then Except.ok p else Except.error (violations s p)

/-- Modelled from the spec: the persisted state, one relational table
`books` keyed by isbn (spec §6); each row is the stored book object. -/
abbrev Store := List (String × Payload)

/-- The JSON response-body shapes of the API (spec §6). -/
inductive RespBody where
  | book (b : Payload)
  | books (bs : List Payload)
  | errors (msgs : List String)
  | message (m : String)
deriving DecidableEq

/-- An HTTP response: status code and JSON body. -/
structure Response where
  status : Nat
  body : RespBody
deriving DecidableEq

/-- The isbn field of a book payload, as the route handlers read it. -/
def isbnOf (p : Payload) : String :=
  match alookup "isbn" p with
  | some (Jval.str s) => s
  | _ => ""

/-- Modelled from the spec: the partial update applied by the book store
(spec §4.3): each stored column keeps its key and takes the update's value
when one is supplied, its old value otherwise. -/
def mergeBook (u : Payload) : Payload → Payload
  | [] => []
  | (k, v) :: rest => (k, (alookup k u).getD v) :: mergeBook u rest

/-- Modelled from the spec: replace the row keyed by the given isbn with
the merged book (the SQL `UPDATE ... WHERE isbn = $1`). -/
def updateStore (isbn : String) (m : Payload) : Store → Store
  | [] => []
  | (k, b) :: rest =>
      (if k = isbn then (k, m) else (k, b)) :: updateStore isbn m rest

/-- Modelled from the spec: remove the row keyed by the given isbn (the
SQL `DELETE FROM books WHERE isbn = $1`). -/
def removeBook (isbn : String) : Store → Store
  | [] => []
  | (k, b) :: rest =>
      if k = isbn then removeBook isbn rest else (k, b) :: removeBook isbn rest

/-- Modelled from the spec: `GET /books/:isbn` (spec §4.4): 200 with the
book when the isbn is present, 404 otherwise. -/
def getBook (st : Store) (isbn : String) : Response :=
  match alookup isbn st with
  | some b => ⟨200, RespBody.book b⟩
  | none => ⟨404, RespBody.errors ["Book not found"]⟩

/-- Modelled from the spec: `POST /books` (spec §4.4): validate against
the create schema, then insert; an invalid payload yields 400 with the
combined violations before any persistence; an already-present isbn makes
the insert fail with a storage-level conflict surfaced as a generic 500
failure (spec §4.3, §7); otherwise 201 with the created book. -/
def postBooks (st : Store) (p : Payload) : Store × Response :=
  match validate p bookSchema with
  | Except.error msgs => (st, ⟨400, RespBody.errors msgs⟩)
  | Except.ok q =>
      match alookup (isbnOf q) st with
      | some _ => (st, ⟨500, RespBody.errors ["duplicate key"]⟩)
      | none => (st ++ [(isbnOf q, q)], ⟨201, RespBody.book q⟩)

/-- Modelled from the spec: `PUT /books/:isbn` (spec §4.4): validate
against the update schema, then update; 400 with the combined violations
when invalid, 404 when the isbn is absent, otherwise 200 with the merged
book. -/
def putBooks (st : Store) (isbn : String) (p : Payload) : Store × Response :=
  match validate p bookSchemaUpdate with
  | Except.error msgs => (st, ⟨400, RespBody.errors msgs⟩)
  | Except.ok q =>
      match alookup isbn st with
      | none => (st, ⟨404, RespBody.errors ["Book not found"]⟩)
      | some b =>
          let m := mergeBook q b
          (updateStore isbn m st, ⟨200, RespBody.book m⟩)

/-- Modelled from the spec: `DELETE /books/:isbn` (spec §4.4): 200 with
the fixed message and the row removed when present, 404 otherwise. -/
def deleteBooks (st : Store) (isbn : String) : Store × Response :=
  match alookup isbn st with
  | none => (st, ⟨404, RespBody.errors ["Book not found"]⟩)
  | some _ => (removeBook isbn st, ⟨200, RespBody.message "Book deleted"⟩)

/-- The book row the test suite seeds before each test (isbn 0691161518). -/
def bookRow : Payload :=
  [ ("isbn", Jval.str "0691161518")
  , ("amazon_url", Jval.str "http://a.co/eobPtX2")
  , ("author", Jval.str "Matthew Lane")
  , ("language", Jval.str "english")
  , ("pages", Jval.int 264)
  , ("publisher", Jval.str "Princeton University Press")
  , ("title", Jval.str "Power-Up: Unlocking the Hidden Mathematics in Video Games")
  , ("year", Jval.int 2017) ]

/-- The valid create payload of the POST test (isbn 1234567890). -/
def pGood : Payload :=
  [ ("isbn", Jval.str "1234567890")
  , ("amazon_url", Jval.str "http://a.co/eobPtX3")
  , ("author", Jval.str "John Doe")
  , ("language", Jval.str "english")
  , ("pages", Jval.int 300)
  , ("publisher", Jval.str "Some Publisher")
  , ("title", Jval.str "Some Title")
  , ("year", Jval.int 2021) ]

/-- An invalid payload carrying one violation of every kind at once:
wrongly typed isbn, malformed URI, pages below minimum, year below
minimum, an undeclared property, and several missing required fields. -/
def pBad : Payload :=
  [ ("isbn", Jval.int 5)
  , ("amazon_url", Jval.str "not-a-url")
  , ("pages", Jval.int 0)
  , ("year", Jval.int (-1))
  , ("extra_property", Jval.str "x") ]

/-- An update payload with a wrongly typed declared field. -/
def uWrong : Payload := [("pages", Jval.str "many")]

/-- A valid create payload sitting exactly on the numeric bounds
(pages = 1, year = 0). -/
def pBoundary : Payload :=
  [ ("isbn", Jval.str "1111111111")
  , ("amazon_url", Jval.str "http://a.co/x")
  , ("author", Jval.str "A")
  , ("language", Jval.str "english")
  , ("pages", Jval.int 1)
  , ("publisher", Jval.str "P")
  , ("title", Jval.str "T")
  , ("year", Jval.int 0) ]

/-- An update payload sitting exactly on the numeric bounds. -/
def uBoundary : Payload := [("pages", Jval.int 1), ("year", Jval.int 0)]

/-- A one-field partial update payload. -/
def uPartial : Payload := [("author", Jval.str "Jane Doe")]

/-- An update payload below the pages bound, for the bounds claims. -/
def uLow : Payload := [("pages", Jval.int 0), ("year", Jval.int (-1))]

/-- A payload that tries to change the isbn through PUT. -/
def uIsbn : Payload := [("isbn", Jval.str "9999999999")]

/-- A 400 response carrying at least one violation message. -/
def rejects400 (r : Response) : Prop :=
  r.status = 400 ∧ ∃ msgs, r.body = RespBody.errors msgs ∧ msgs ≠ []

/-! Association-list lemmas. -/

theorem alookup_mem {β : Type} {k : String} {v : β} {l : List (String × β)}
    (h : alookup k l = some v) : (k, v) ∈ l := by
  induction l with
  | nil => exact Option.noConfusion h
  | cons kv rest ih =>
      obtain ⟨k', v'⟩ := kv
      by_cases hk : k = k'
      · subst hk
        rw [alookup, if_pos rfl] at h
        rw [Option.some.injEq] at h
        subst h
        exact List.mem_cons_self _ _
      · rw [alookup, if_neg hk] at h
        exact List.mem_cons_of_mem _ (ih h)

/-! Validator characterization lemmas. -/

theorem mem_requiredViolations {p : Payload} {r : String} {req : List String}
    (hr : r ∈ req) (hn : alookup r p = none) :
    reqMsg r ∈ requiredViolations p req := by
  induction req with
  | nil => cases hr
  | cons a rest ih =>
      rw [requiredViolations]
      rcases List.mem_cons.mp hr with h | h
      · subst h
        rw [if_pos hn]
        exact List.mem_append_left _ (List.mem_singleton.mpr rfl)
      · exact List.mem_append_right _ (ih h)

theorem mem_entriesViolations {props : List (String × FieldSchema)} {addl : Bool}
    {k : String} {v : Jval} {p : Payload} {msg : String}
    (h : (k, v) ∈ p) (hm : msg ∈ entryViolations props addl k v) :
    msg ∈ entriesViolations props addl p := by
  induction p with
  | nil => cases h
  | cons kv rest ih =>
      obtain ⟨k', v'⟩ := kv
      rw [entriesViolations]
      rcases List.mem_cons.mp h with h' | h'
      · rw [Prod.mk.injEq] at h'
        obtain ⟨rfl, rfl⟩ := h'
        exact List.mem_append_left _ hm
      · exact List.mem_append_right _ (ih h')

theorem entryViolations_eq_nil_of_mem {props : List (String × FieldSchema)}
    {addl : Bool} {p : Payload} {k : String} {v : Jval}
    (h : entriesViolations props addl p = []) (hm : (k, v) ∈ p) :
    entryViolations props addl k v = [] := by
  induction p with
  | nil => cases hm
  | cons kv rest ih =>
      obtain ⟨k', v'⟩ := kv
      rw [entriesViolations, List.append_eq_nil] at h
      rcases List.mem_cons.mp hm with h' | h'
      · rw [Prod.mk.injEq] at h'
        obtain ⟨rfl, rfl⟩ := h'
        exact h.1
      · exact ih h.2 h'

theorem violations_eq_nil_parts {s : Schema} {p : Payload}
    (h : violations s p = []) :
    requiredViolations p s.required = [] ∧
      entriesViolations s.properties s.additionalProperties p = [] := by
  rw [violations, List.append_eq_nil] at h
  exact h

theorem mem_violations_required {s : Schema} {p : Payload} {r : String}
    (hr : r ∈ s.required) (hn : alookup r p = none) :
    reqMsg r ∈ violations s p :=
  List.mem_append_left _ (mem_requiredViolations hr hn)

theorem mem_violations_entry {s : Schema} {p : Payload} {k : String} {v : Jval}
    {msg : String} (h : (k, v) ∈ p)
    (hm : msg ∈ entryViolations s.properties s.additionalProperties k v) :
    msg ∈ violations s p :=
  List.mem_append_right _ (mem_entriesViolations h hm)

theorem validate_ok_iff {s : Schema} {p q : Payload} :
    validate p s = Except.ok q ↔ violations s p = [] ∧ q = p := by
  rcases eq_or_ne (violations s p) [] with h | h
  · rw [validate, if_pos h]
    constructor
    · intro he
      exact ⟨h, (Except.ok.inj he).symm⟩
    · rintro ⟨-, rfl⟩
      rfl
  · rw [validate, if_neg h]
    constructor
    · intro he
      exact Except.noConfusion he
    · rintro ⟨h0, -⟩
      exact absurd h0 h

theorem validate_error_iff {s : Schema} {p : Payload} {msgs : List String} :
    validate p s = Except.error msgs ↔ violations s p = msgs ∧ msgs ≠ [] := by
  rcases eq_or_ne (violations s p) [] with h | h
  · rw [validate, if_pos h]
    constructor
    · intro he
      exact Except.noConfusion he
    · rintro ⟨rfl, hne⟩
      exact absurd h hne
  · rw [validate, if_neg h]
    constructor
    · intro he
      have h1 := Except.error.inj he
      exact ⟨h1, h1 ▸ h⟩
    · rintro ⟨rfl, -⟩
      rfl

theorem validate_error_of_violation {s : Schema} {p : Payload} {msg : String}
    (h : msg ∈ violations s p) :
    validate p s = Except.error (violations s p) ∧ violations s p ≠ [] := by
  have hne : violations s p ≠ [] := List.ne_nil_of_mem h
  exact ⟨validate_error_iff.mpr ⟨rfl, hne⟩, hne⟩

theorem typeOk_string {v : Jval} (h : typeOk FieldType.string v = true) :
    ∃ s, v = Jval.str s := by
  cases v with
  | str s => exact ⟨s, rfl⟩
  | int n => exact absurd h (by simp [typeOk])
  | num => exact absurd h (by simp [typeOk])
  | bool b => exact absurd h (by simp [typeOk])
  | null => exact absurd h (by simp [typeOk])
  | arr => exact absurd h (by simp [typeOk])
  | obj => exact absurd h (by simp [typeOk])

theorem alookup_isbn_of_update_ok {p : Payload}
    (h : violations bookSchemaUpdate p = []) : alookup "isbn" p = none := by
  cases hv : alookup "isbn" p with
  | none => rfl
  | some v =>
      have hmem := alookup_mem hv
      have hclean := entryViolations_eq_nil_of_mem (violations_eq_nil_parts h).2 hmem
      have hval : entryViolations bookSchemaUpdate.properties
          bookSchemaUpdate.additionalProperties "isbn" v = [addlMsg "isbn"] := rfl
      rw [hval] at hclean
      exact List.noConfusion hclean

theorem isbn_str_of_create_ok {p : Payload}
    (h : violations bookSchema p = []) :
    ∃ s, alookup "isbn" p = some (Jval.str s) := by
  obtain ⟨hreq, hent⟩ := violations_eq_nil_parts h
  cases hv : alookup "isbn" p with
  | none =>
      have hmem : reqMsg "isbn" ∈ requiredViolations p bookSchema.required :=
        mem_requiredViolations (by rw [bookSchema]; exact List.mem_cons_self _ _) hv
      rw [hreq] at hmem
      cases hmem
  | some v =>
      have hmem := alookup_mem hv
      have hclean := entryViolations_eq_nil_of_mem hent hmem
      have hfs : alookup "isbn" bookSchema.properties =
          some ⟨FieldType.string, false, none⟩ := rfl
      rw [entryViolations, hfs, List.append_eq_nil] at hclean
      have htv := hclean.1
      cases hb : typeOk FieldType.string v with
      | false =>
          rw [typeViolation, hb] at htv
          exact absurd htv (by simp)
      | true =>
          obtain ⟨s, rfl⟩ := typeOk_string hb
          exact ⟨s, rfl⟩

/-! Merge and store lemmas. -/

theorem alookup_mergeBook_of_not_supplied {u : Payload} {k : String}
    (h : alookup k u = none) :
    ∀ b : Payload, alookup k (mergeBook u b) = alookup k b
  | [] => rfl
  | (k', v') :: rest => by
      rw [mergeBook]
      by_cases hk : k = k'
      · subst hk
        rw [alookup, alookup, if_pos rfl, if_pos rfl, h]
        rfl
      · rw [alookup, alookup, if_neg hk, if_neg hk]
        exact alookup_mergeBook_of_not_supplied h rest

theorem alookup_mergeBook_of_supplied {u : Payload} {k : String} {v : Jval}
    {b : Payload} {w : Jval} (hu : alookup k u = some v)
    (hb : alookup k b = some w) : alookup k (mergeBook u b) = some v := by
  induction b with
  | nil => exact Option.noConfusion hb
  | cons kv rest ih =>
      obtain ⟨k', v'⟩ := kv
      rw [mergeBook]
      by_cases hk : k = k'
      · subst hk
        rw [alookup, if_pos rfl, hu]
        rfl
      · rw [alookup, if_neg hk] at hb
        rw [alookup, if_neg hk]
        exact ih hb

theorem alookup_updateStore_other {i j : String} {m : Payload} (h : j ≠ i) :
    ∀ st : Store, alookup j (updateStore i m st) = alookup j st
  | [] => rfl
  | (k, b) :: rest => by
      rw [updateStore]
      by_cases hk : k = i
      · subst hk
        rw [if_pos rfl, alookup, alookup, if_neg h, if_neg h]
        exact alookup_updateStore_other h rest
      · rw [if_neg hk]
        by_cases hj : j = k
        · subst hj
          rw [alookup, alookup, if_pos rfl, if_pos rfl]
        · rw [alookup, alookup, if_neg hj, if_neg hj]
          exact alookup_updateStore_other h rest

theorem alookup_updateStore_self {i : String} {m : Payload} {st : Store}
    {b : Payload} (hb : alookup i st = some b) :
    alookup i (updateStore i m st) = some m := by
  induction st with
  | nil => exact Option.noConfusion hb
  | cons kv rest ih =>
      obtain ⟨k, bk⟩ := kv
      rw [updateStore]
      by_cases hk : k = i
      · subst hk
        rw [if_pos rfl, alookup, if_pos rfl]
      · have hik : ¬ i = k := fun he => hk he.symm
        rw [alookup, if_neg hik] at hb
        rw [if_neg hk, alookup, if_neg hik]
        exact ih hb

theorem alookup_removeBook_self (i : String) :
    ∀ st : Store, alookup i (removeBook i st) = none
  | [] => rfl
  | (k, b) :: rest => by
      rw [removeBook]
      by_cases hk : k = i
      · rw [if_pos hk]
        exact alookup_removeBook_self i rest
      · rw [if_neg hk, alookup, if_neg (fun he => hk he.symm)]
        exact alookup_removeBook_self i rest

theorem alookup_append_self {k : String} {p : Payload} {st : Store}
    (h : alookup k st = none) : alookup k (st ++ [(k, p)]) = some p := by
  induction st with
  | nil => rw [List.nil_append, alookup, if_pos rfl]
  | cons kv rest ih =>
      obtain ⟨k', b⟩ := kv
      rw [alookup] at h
      rw [List.cons_append, alookup]
      by_cases hk : k = k'
      · rw [if_pos hk] at h
        exact Option.noConfusion h
      · rw [if_neg hk] at h ⊢
        exact ih h

/-! Membership of the individual violation kinds in a field's check
results. -/

theorem typeMsg_mem_entry {props : List (String × FieldSchema)} {addl : Bool}
    {k : String} {v : Jval} {fs : FieldSchema}
    (hfs : alookup k props = some fs) (ht : typeOk fs.type v = false) :
    typeMsg k ∈ entryViolations props addl k v := by
  rw [entryViolations, hfs]
  apply List.mem_append_left
  simp [typeViolation, ht]

theorem fmtMsg_mem_entry {props : List (String × FieldSchema)} {addl : Bool}
    {k : String} {s : String} {fs : FieldSchema}
    (hfs : alookup k props = some fs) (hf : fs.format_uri = true)
    (hu : uriOk s = false) :
    fmtMsg k ∈ entryViolations props addl k (Jval.str s) := by
  rw [entryViolations, hfs]
  apply List.mem_append_left
  apply List.mem_append_right
  simp [formatViolation, hf, hu]

theorem minMsg_mem_entry {props : List (String × FieldSchema)} {addl : Bool}
    {k : String} {n : Int} {fs : FieldSchema} {m : Int}
    (hfs : alookup k props = some fs) (hm : fs.minimum = some m)
    (hlt : n < m) :
    minMsg k ∈ entryViolations props addl k (Jval.int n) := by
  rw [entryViolations, hfs]
  apply List.mem_append_right
  simp [minViolation, hm, hlt]

theorem addlMsg_mem_entry {props : List (String × FieldSchema)} {addl : Bool}
    {k : String} {v : Jval} (hfs : alookup k props = none)
    (ha : addl = false) :
    addlMsg k ∈ entryViolations props addl k v := by
  rw [entryViolations, hfs, ha]
  simp

/-! Route-handler reductions. -/

theorem postBooks_error {st : Store} {p : Payload} {msgs : List String}
    (h : validate p bookSchema = Except.error msgs) :
    postBooks st p = (st, ⟨400, RespBody.errors msgs⟩) := by
  simp only [postBooks, h]

theorem putBooks_error {st : Store} {i : String} {p : Payload}
    {msgs : List String} (h : validate p bookSchemaUpdate = Except.error msgs) :
    putBooks st i p = (st, ⟨400, RespBody.errors msgs⟩) := by
  simp only [putBooks, h]

theorem postBooks_of_violation {st : Store} {p : Payload} {msg : String}
    (h : msg ∈ violations bookSchema p) :
    (postBooks st p).1 = st ∧ rejects400 (postBooks st p).2 := by
  obtain ⟨he, hne⟩ := validate_error_of_violation h
  rw [postBooks_error he]
  exact ⟨rfl, rfl, violations bookSchema p, rfl, hne⟩

theorem putBooks_of_violation {st : Store} {i : String} {p : Payload}
    {msg : String} (h : msg ∈ violations bookSchemaUpdate p) :
    (putBooks st i p).1 = st ∧ rejects400 (putBooks st i p).2 := by
  obtain ⟨he, hne⟩ := validate_error_of_violation h
  rw [putBooks_error he]
  exact ⟨rfl, rfl, violations bookSchemaUpdate p, rfl, hne⟩

/-- C3, counterexample: the claim says the update schema declares all eight
create-schema fields including isbn; but the create schema declares isbn
(as a string) while the update schema does not declare it at all. -/
theorem update_schema_missing_isbn :
    alookup "isbn" bookSchema.properties =
        some ⟨FieldType.string, false, none⟩ ∧
      alookup "isbn" bookSchemaUpdate.properties = none :=
  ⟨rfl, rfl⟩

/-- C3, amended: the update schema declares exactly the create schema's
fields except isbn, with identical type, format and bound constraints,
with no field required and additionalProperties false. -/
theorem update_schema_is_create_minus_isbn :
    bookSchema.properties =
        ("isbn", ⟨FieldType.string, false, none⟩) :: bookSchemaUpdate.properties ∧
      bookSchemaUpdate.required = [] ∧
      bookSchemaUpdate.additionalProperties = false :=
  ⟨rfl, rfl, rfl⟩

/-- C7: any payload carrying pages as an integer below 1, or year as an
integer below 0, is rejected by both schemas with a nonempty violation
list; and payloads sitting exactly on the bounds (pages = 1, year = 0)
validate successfully. -/
theorem numeric_bounds_enforced (p : Payload) (n : Int) :
    (("pages", Jval.int n) ∈ p → n < 1 →
        (∃ m, validate p bookSchema = Except.error m ∧ m ≠ []) ∧
          ∃ m, validate p bookSchemaUpdate = Except.error m ∧ m ≠ []) ∧
    (("year", Jval.int n) ∈ p → n < 0 →
        (∃ m, validate p bookSchema = Except.error m ∧ m ≠ []) ∧
          ∃ m, validate p bookSchemaUpdate = Except.error m ∧ m ≠ []) ∧
    validate pBoundary bookSchema = Except.ok pBoundary ∧
    validate uBoundary bookSchemaUpdate = Except.ok uBoundary := by
  refine ⟨?_, ?_, rfl, rfl⟩
  · intro hp hlt
    constructor
    · have h := mem_violations_entry (s := bookSchema) hp
        (minMsg_mem_entry rfl rfl hlt)
      obtain ⟨he, hne⟩ := validate_error_of_violation h
      exact ⟨_, he, hne⟩
    · have h := mem_violations_entry (s := bookSchemaUpdate) hp
        (minMsg_mem_entry rfl rfl hlt)
      obtain ⟨he, hne⟩ := validate_error_of_violation h
      exact ⟨_, he, hne⟩
  · intro hp hlt
    constructor
    · have h := mem_violations_entry (s := bookSchema) hp
        (minMsg_mem_entry rfl rfl hlt)
      obtain ⟨he, hne⟩ := validate_error_of_violation h
      exact ⟨_, he, hne⟩
    · have h := mem_violations_entry (s := bookSchemaUpdate) hp
        (minMsg_mem_entry rfl rfl hlt)
      obtain ⟨he, hne⟩ := validate_error_of_violation h
      exact ⟨_, he, hne⟩

/-- C7 witness: the bounds claims applied to the concrete payload with
pages = 0 and year = -1. -/
theorem numeric_bounds_enforced_witness :
    ((∃ m, validate uLow bookSchema = Except.error m ∧ m ≠ []) ∧
        ∃ m, validate uLow bookSchemaUpdate = Except.error m ∧ m ≠ []) ∧
      (∃ m, validate uLow bookSchema = Except.error m ∧ m ≠ []) ∧
      ∃ m, validate uLow bookSchemaUpdate = Except.error m ∧ m ≠ [] :=
  ⟨(numeric_bounds_enforced uLow 0).1 (by decide) (by decide),
   (numeric_bounds_enforced uLow (-1)).2.1 (by decide) (by decide)⟩

/-- C8: the validator is deterministic (two runs on the same payload and
schema give the same result) and on success returns the payload itself,
unmodified. -/
theorem validate_deterministic_pure (p : Payload) (s : Schema)
    (r₁ r₂ : Except (List String) Payload)
    (h₁ : validate p s = r₁) (h₂ : validate p s = r₂) :
    r₁ = r₂ ∧ ∀ q, validate p s = Except.ok q → q = p := by
  constructor
  · rw [← h₁, ← h₂]
  · intro q hq
    exact (validate_ok_iff.mp hq).2

/-- C8 witness: determinism and success-transparency at the concrete valid
create payload. -/
theorem validate_deterministic_pure_witness :
    (Except.ok pGood : Except (List String) Payload) = Except.ok pGood ∧
      pGood = pGood :=
  ⟨(validate_deterministic_pure pGood bookSchema (Except.ok pGood)
      (Except.ok pGood) rfl rfl).1,
   (validate_deterministic_pure pGood bookSchema (Except.ok pGood)
      (Except.ok pGood) rfl rfl).2 pGood rfl⟩

/-- C9: the empty object is a valid update payload: it validates against
the update schema (which requires nothing), so a PUT with an empty body
passes validation and its response is never a 400 (it is 200 when the
isbn exists and 404 otherwise). -/
theorem empty_update_payload_valid :
    validate ([] : Payload) bookSchemaUpdate = Except.ok ([] : Payload) ∧
      ∀ (st : Store) (i : String),
        (putBooks st i []).2.status = 200 ∨ (putBooks st i []).2.status = 404 := by
  refine ⟨rfl, ?_⟩
  intro st i
  have hv : validate ([] : Payload) bookSchemaUpdate =
      Except.ok ([] : Payload) := rfl
  cases hb : alookup i st with
  | none =>
      refine Or.inr ?_
      simp only [putBooks, hv, hb]
  | some b =>
      refine Or.inl ?_
      simp only [putBooks, hv, hb]

/-- C10: every PUT payload containing an isbn field fails validation
against the update schema with a nonempty violation list, so the PUT
leaves the store exactly as it was (the stored isbn can never change
through PUT) and responds 400. -/
theorem put_isbn_always_rejected (st : Store) (i : String) (p : Payload)
    (v : Jval) (h : ("isbn", v) ∈ p) :
    (∃ msgs, validate p bookSchemaUpdate = Except.error msgs ∧ msgs ≠ []) ∧
      (putBooks st i p).1 = st ∧ (putBooks st i p).2.status = 400 := by
  have hmem : addlMsg "isbn" ∈ violations bookSchemaUpdate p :=
    mem_violations_entry h (addlMsg_mem_entry rfl rfl)
  obtain ⟨he, hne⟩ := validate_error_of_violation hmem
  rw [putBooks_error he]
  exact ⟨⟨_, he, hne⟩, rfl, rfl⟩

/-- C10 witness: the isbn-in-payload rejection at the seeded store and a
concrete isbn-bearing payload. -/
theorem put_isbn_always_rejected_witness :
    (∃ msgs, validate uIsbn bookSchemaUpdate = Except.error msgs ∧ msgs ≠ []) ∧
      (putBooks [("0691161518", bookRow)] "0691161518" uIsbn).1 =
        [("0691161518", bookRow)] ∧
      (putBooks [("0691161518", bookRow)] "0691161518" uIsbn).2.status = 400 :=
  put_isbn_always_rejected [("0691161518", bookRow)] "0691161518" uIsbn
    (Jval.str "9999999999") (List.mem_cons_self _ _)

/-- C1, counterexample: the test's create payload is valid under the
create schema, yet POST against a store already holding that isbn is
answered with the storage conflict surfaced as 500, not with 201. -/
theorem post_valid_duplicate_not_201 :
    validate pGood bookSchema = Except.ok pGood ∧
      ¬ (postBooks [("1234567890", pGood)] pGood).2.status = 201 := by
  refine ⟨rfl, ?_⟩
  intro h
  have h500 : (postBooks [("1234567890", pGood)] pGood).2.status = 500 := rfl
  rw [h500] at h
  exact absurd h (by decide)

/-- C1, amended: for every payload valid under the create schema whose
isbn is not already present in the store, POST /books responds 201 and the
body carries the created book — the payload itself, including its
client-supplied isbn — which is also stored under that isbn. -/
theorem post_valid_fresh_creates (st : Store) (p : Payload)
    (hv : validate p bookSchema = Except.ok p)
    (hf : alookup (isbnOf p) st = none) :
    (postBooks st p).2.status = 201 ∧
      (postBooks st p).2.body = RespBody.book p ∧
      (∃ s, alookup "isbn" p = some (Jval.str s) ∧ isbnOf p = s) ∧
      alookup (isbnOf p) (postBooks st p).1 = some p := by
  have hpost : postBooks st p =
      (st ++ [(isbnOf p, p)], ⟨201, RespBody.book p⟩) := by
    simp only [postBooks, hv, hf]
  obtain ⟨hviol, -⟩ := validate_ok_iff.mp hv
  obtain ⟨s, hs⟩ := isbn_str_of_create_ok hviol
  refine ⟨by rw [hpost], by rw [hpost], ⟨s, hs, ?_⟩, ?_⟩
  · rw [isbnOf, hs]
  · rw [hpost]
    exact alookup_append_self hf

/-- C1 witness: the amended claim at the empty store and the test's
create payload, isbn 1234567890. -/
theorem post_valid_fresh_creates_witness :
    (postBooks [] pGood).2.status = 201 ∧
      (postBooks [] pGood).2.body = RespBody.book pGood ∧
      (∃ s, alookup "isbn" pGood = some (Jval.str s) ∧ isbnOf pGood = s) ∧
      alookup (isbnOf pGood) (postBooks [] pGood).1 = some pGood :=
  post_valid_fresh_creates [] pGood rfl rfl

/-- C2: a create payload missing a required field, and a create or update
payload with a wrongly typed declared field or an undeclared field, always
draws a 400 response whose body carries at least one violation. -/
theorem invalid_payloads_get_400 (st : Store) (i : String) (p : Payload) :
    (∀ r, r ∈ bookSchema.required → alookup r p = none →
        rejects400 (postBooks st p).2) ∧
    (∀ k v fs, (k, v) ∈ p → alookup k bookSchema.properties = some fs →
        typeOk fs.type v = false → rejects400 (postBooks st p).2) ∧
    (∀ k v, (k, v) ∈ p → alookup k bookSchema.properties = none →
        rejects400 (postBooks st p).2) ∧
    (∀ k v fs, (k, v) ∈ p → alookup k bookSchemaUpdate.properties = some fs →
        typeOk fs.type v = false → rejects400 (putBooks st i p).2) ∧
    (∀ k v, (k, v) ∈ p → alookup k bookSchemaUpdate.properties = none →
        rejects400 (putBooks st i p).2) := by
  refine ⟨?_, ?_, ?_, ?_, ?_⟩
  · intro r hr hn
    exact (postBooks_of_violation (mem_violations_required hr hn)).2
  · intro k v fs hkv hfs ht
    exact (postBooks_of_violation
      (mem_violations_entry hkv (typeMsg_mem_entry hfs ht))).2
  · intro k v hkv hfs
    exact (postBooks_of_violation
      (mem_violations_entry hkv (addlMsg_mem_entry hfs rfl))).2
  · intro k v fs hkv hfs ht
    exact (putBooks_of_violation
      (mem_violations_entry hkv (typeMsg_mem_entry hfs ht))).2
  · intro k v hkv hfs
    exact (putBooks_of_violation
      (mem_violations_entry hkv (addlMsg_mem_entry hfs rfl))).2

/-- C2 witness: all five rejection modes at concrete inputs: a create
payload missing its author, a wrongly typed isbn, an undeclared property,
a wrongly typed update field and an undeclared update property. -/
theorem invalid_payloads_get_400_witness :
    rejects400 (postBooks [] pBad).2 ∧
      rejects400 (postBooks [] pBad).2 ∧
      rejects400 (postBooks [] pBad).2 ∧
      rejects400 (putBooks [] "0691161518" uWrong).2 ∧
      rejects400 (putBooks [] "0691161518" pBad).2 := by
  have c := invalid_payloads_get_400 [] "0691161518" pBad
  have cu := invalid_payloads_get_400 [] "0691161518" uWrong
  exact ⟨c.1 "author" (by decide) rfl,
    c.2.1 "isbn" (Jval.int 5) ⟨FieldType.string, false, none⟩
      (List.mem_cons_self _ _) rfl rfl,
    c.2.2.1 "extra_property" (Jval.str "x") (by decide) rfl,
    cu.2.2.2.1 "pages" (Jval.str "many") ⟨FieldType.integer, false, some 1⟩
      (List.mem_cons_self _ _) rfl rfl,
    c.2.2.2.2 "extra_property" (Jval.str "x") (by decide) rfl⟩

/-- C4: the validator's single pass is complete — every missing required
field, wrongly typed field, malformed URI, below-minimum number and
undeclared field present in the payload contributes its message to the one
combined list the error result carries — and a failed validation leaves
the store untouched on both mutating routes. -/
theorem validator_complete_before_persistence (s : Schema) (p : Payload)
    (st : Store) (i : String) :
    (∀ r, r ∈ s.required → alookup r p = none → reqMsg r ∈ violations s p) ∧
    (∀ k v fs, (k, v) ∈ p → alookup k s.properties = some fs →
        typeOk fs.type v = false → typeMsg k ∈ violations s p) ∧
    (∀ k t fs, (k, Jval.str t) ∈ p → alookup k s.properties = some fs →
        fs.format_uri = true → uriOk t = false → fmtMsg k ∈ violations s p) ∧
    (∀ k n fs m, (k, Jval.int n) ∈ p → alookup k s.properties = some fs →
        fs.minimum = some m → n < m → minMsg k ∈ violations s p) ∧
    (∀ k v, (k, v) ∈ p → alookup k s.properties = none →
        s.additionalProperties = false → addlMsg k ∈ violations s p) ∧
    (∀ msgs, validate p s = Except.error msgs → msgs = violations s p) ∧
    (∀ msgs, validate p bookSchema = Except.error msgs →
        (postBooks st p).1 = st) ∧
    (∀ msgs, validate p bookSchemaUpdate = Except.error msgs →
        (putBooks st i p).1 = st) := by
  refine ⟨?_, ?_, ?_, ?_, ?_, ?_, ?_, ?_⟩
  · intro r hr hn
    exact mem_violations_required hr hn
  · intro k v fs hkv hfs ht
    exact mem_violations_entry hkv (typeMsg_mem_entry hfs ht)
  · intro k t fs hkv hfs hf hu
    exact mem_violations_entry hkv (fmtMsg_mem_entry hfs hf hu)
  · intro k n fs m hkv hfs hm hlt
    exact mem_violations_entry hkv (minMsg_mem_entry hfs hm hlt)
  · intro k v hkv hfs ha
    exact mem_violations_entry hkv (addlMsg_mem_entry hfs ha)
  · intro msgs hmsgs
    exact (validate_error_iff.mp hmsgs).1.symm
  · intro msgs hmsgs
    rw [postBooks_error hmsgs]
  · intro msgs hmsgs
    rw [putBooks_error hmsgs]

/-- C4 witness: completeness on the payload carrying every violation kind
at once — all five messages are in the one combined list — and both
mutating routes leave the seeded store unchanged on that payload. -/
theorem validator_complete_before_persistence_witness :
    reqMsg "author" ∈ violations bookSchema pBad ∧
      typeMsg "isbn" ∈ violations bookSchema pBad ∧
      fmtMsg "amazon_url" ∈ violations bookSchema pBad ∧
      minMsg "pages" ∈ violations bookSchema pBad ∧
      addlMsg "extra_property" ∈ violations bookSchema pBad ∧
      violations bookSchema pBad = violations bookSchema pBad ∧
      (postBooks [("0691161518", bookRow)] pBad).1 =
        [("0691161518", bookRow)] ∧
      (putBooks [("0691161518", bookRow)] "0691161518" pBad).1 =
        [("0691161518", bookRow)] := by
  have c := validator_complete_before_persistence bookSchema pBad
    [("0691161518", bookRow)] "0691161518"
  exact ⟨c.1 "author" (by decide) rfl,
    c.2.1 "isbn" (Jval.int 5) ⟨FieldType.string, false, none⟩
      (List.mem_cons_self _ _) rfl rfl,
    c.2.2.1 "amazon_url" "not-a-url" ⟨FieldType.string, true, none⟩
      (by decide) rfl rfl rfl,
    c.2.2.2.1 "pages" 0 ⟨FieldType.integer, false, some 1⟩ 1
      (by decide) rfl rfl (by decide),
    c.2.2.2.2.1 "extra_property" (Jval.str "x") (by decide) rfl rfl,
    c.2.2.2.2.2.1 (violations bookSchema pBad) rfl,
    c.2.2.2.2.2.2.1 (violations bookSchema pBad) rfl,
    c.2.2.2.2.2.2.2 (violations bookSchemaUpdate pBad) rfl⟩

/-- C5: for an existing book and a valid partial update payload, PUT
responds 200 with the merged book, stores the merged book under the same
isbn, changes exactly the supplied fields — unsupplied fields and the isbn
keep their stored values — and leaves every other row unchanged. -/
theorem put_partial_update_frame (st : Store) (i : String) (b u : Payload)
    (hb : alookup i st = some b)
    (hu : validate u bookSchemaUpdate = Except.ok u) :
    (putBooks st i u).2.status = 200 ∧
      (putBooks st i u).2.body = RespBody.book (mergeBook u b) ∧
      alookup i (putBooks st i u).1 = some (mergeBook u b) ∧
      (∀ k, alookup k u = none → alookup k (mergeBook u b) = alookup k b) ∧
      (∀ k v w, alookup k u = some v → alookup k b = some w →
          alookup k (mergeBook u b) = some v) ∧
      alookup "isbn" (mergeBook u b) = alookup "isbn" b ∧
      (∀ j, j ≠ i → alookup j (putBooks st i u).1 = alookup j st) := by
  have hput : putBooks st i u = (updateStore i (mergeBook u b) st,
      ⟨200, RespBody.book (mergeBook u b)⟩) := by
    simp only [putBooks, hu, hb]
  obtain ⟨hviol, -⟩ := validate_ok_iff.mp hu
  have hisbn := alookup_isbn_of_update_ok hviol
  refine ⟨by rw [hput], by rw [hput], ?_, ?_, ?_, ?_, ?_⟩
  · rw [hput]
    exact alookup_updateStore_self hb
  · intro k hk
    exact alookup_mergeBook_of_not_supplied hk b
  · intro k v w hv hw
    exact alookup_mergeBook_of_supplied hv hw
  · exact alookup_mergeBook_of_not_supplied hisbn b
  · intro j hj
    rw [hput]
    exact alookup_updateStore_other hj st

/-- C5 witness: the author-only update of the seeded book: 200 with the
merged book, the title field untouched, the author field taken from the
payload and the isbn field unchanged. -/
theorem put_partial_update_frame_witness :
    (putBooks [("0691161518", bookRow)] "0691161518" uPartial).2.status = 200 ∧
      (putBooks [("0691161518", bookRow)] "0691161518" uPartial).2.body =
        RespBody.book (mergeBook uPartial bookRow) ∧
      alookup "0691161518"
          (putBooks [("0691161518", bookRow)] "0691161518" uPartial).1 =
        some (mergeBook uPartial bookRow) ∧
      alookup "title" (mergeBook uPartial bookRow) = alookup "title" bookRow ∧
      alookup "author" (mergeBook uPartial bookRow) =
        some (Jval.str "Jane Doe") ∧
      alookup "isbn" (mergeBook uPartial bookRow) = alookup "isbn" bookRow := by
  have c := put_partial_update_frame [("0691161518", bookRow)] "0691161518"
    bookRow uPartial rfl rfl
  exact ⟨c.1, c.2.1, c.2.2.1,
    c.2.2.2.1 "title" rfl,
    c.2.2.2.2.1 "author" (Jval.str "Jane Doe") (Jval.str "Matthew Lane") rfl rfl,
    c.2.2.2.2.2.1⟩

/-- C6: deleting an existing isbn responds 200 with exactly the body
message "Book deleted" and removes the row, so a subsequent GET for that
isbn responds 404; deleting an absent isbn responds 404. -/
theorem delete_then_get_404 (st : Store) (i : String) :
    (∀ b, alookup i st = some b →
        (deleteBooks st i).2 = ⟨200, RespBody.message "Book deleted"⟩ ∧
          alookup i (deleteBooks st i).1 = none ∧
          (getBook (deleteBooks st i).1 i).status = 404) ∧
    (alookup i st = none → (deleteBooks st i).2.status = 404) := by
  constructor
  · intro b hb
    have hd : deleteBooks st i =
        (removeBook i st, ⟨200, RespBody.message "Book deleted"⟩) := by
      simp only [deleteBooks, hb]
    have hr : alookup i (removeBook i st) = none := alookup_removeBook_self i st
    refine ⟨by rw [hd], ?_, ?_⟩
    · rw [hd]
      exact hr
    · rw [hd]
      simp only [getBook, hr]
  · intro hn
    simp only [deleteBooks, hn]

/-- C6 witness: deletion at the seeded store: the present isbn 0691161518
and the absent isbn 0000000000. -/
theorem delete_then_get_404_witness :
    ((deleteBooks [("0691161518", bookRow)] "0691161518").2 =
        ⟨200, RespBody.message "Book deleted"⟩ ∧
      alookup "0691161518"
          (deleteBooks [("0691161518", bookRow)] "0691161518").1 = none ∧
      (getBook (deleteBooks [("0691161518", bookRow)] "0691161518").1
          "0691161518").status = 404) ∧
    (deleteBooks [("0691161518", bookRow)] "0000000000").2.status = 404 :=
  ⟨(delete_then_get_404 [("0691161518", bookRow)] "0691161518").1 bookRow rfl,
   (delete_then_get_404 [("0691161518", bookRow)] "0000000000").2 rfl⟩

end Bookstore
